import Mathlib

/-!
Verification of the time-series forecasting demo (chapter-15_demo_code.py).

The script's tensors are modelled as dimension-tagged total functions:
a `Tensor3` carries its numpy shape `(batch, steps, feats)` together with a
value function, and a `Tensor4` carries `(batch, steps, preds, feats)`.
Data-movement code (slicing, windowing, concatenation, the autoregressive
loop) is polymorphic in the scalar type; arithmetic code (MSE metrics) is
modelled over `ℚ` (every IEEE float is a rational), and the waveform
generator over `ℝ` since it uses the sine function.
-/

namespace Chapter15

/-- `N_STEPS = 200`, the total number of time steps per series. -/
def N_STEPS : Nat := 200

/-- `INITIAL_BATCH_SIZE = 1350`, the batch dimension of the generated series. -/
def INITIAL_BATCH_SIZE : Nat := 1350

/-- `N_PREDICTIONS = 50`, the prediction horizon (called `m` in the pydocs). -/
def N_PREDICTIONS : Nat := 50

/-- `N_FEATURES = 2`, the feature dimension. -/
def N_FEATURES : Nat := 2

/-- `TRAINING_BATCH_SIZE = 900`. -/
def TRAINING_BATCH_SIZE : Nat := 900

/-- `VALIDATION_BATCH_SIZE = 300`. -/
def VALIDATION_BATCH_SIZE : Nat := 300

/-- `TESTING_BATCH_SIZE = 150`. -/
def TESTING_BATCH_SIZE : Nat := 150

/-- `N_INPUT_STEPS = N_STEPS - N_PREDICTIONS` (called `n` in the pydocs). -/
def N_INPUT_STEPS : Nat := N_STEPS - N_PREDICTIONS

/-- `indices = (TRAINING_BATCH_SIZE, TRAINING_BATCH_SIZE + VALIDATION_BATCH_SIZE)`,
the two offsets that split the batch dimension into train/validation/test. -/
def indices : Nat × Nat := (TRAINING_BATCH_SIZE, TRAINING_BATCH_SIZE + VALIDATION_BATCH_SIZE)

/-- A 3-D numpy array of shape `(batch, steps, feats)`; the value function is
total, entries outside the shape are phantom. -/
structure Tensor3 (α : Type) where
  batch : Nat
  steps : Nat
  feats : Nat
  val : Nat → Nat → Nat → α

/-- A 4-D numpy array of shape `(batch, steps, preds, feats)`. -/
structure Tensor4 (α : Type) where
  batch : Nat
  steps : Nat
  preds : Nat
  feats : Nat
  val : Nat → Nat → Nat → Nat → α

/-- numpy slicing `T[:, a:b, :]` along the step axis, with numpy's clamping of
out-of-range slice bounds: the result has `min b steps - min a steps` steps. -/
def sliceSteps {α : Type} (T : Tensor3 α) (a b : Nat) : Tensor3 α :=
  ⟨T.batch, min b T.steps - min a T.steps, T.feats,
    fun r t f => T.val r (min a T.steps + t) f⟩

/-- numpy broadcast compatibility of a source axis against a target axis:
the source extent must equal the target extent or be `1`. -/
def bcastOk (target src : Nat) : Prop := src = target ∨ src = 1

instance (target src : Nat) : Decidable (bcastOk target src) := by
  unfold bcastOk; infer_instance

/-- Index into a broadcast source axis: an axis of extent `1` is read at `0`. -/
def bcastIdx (src i : Nat) : Nat := if src = 1 then 0 else i

/-- The numpy assignment `Y[:, :, j, :] = S` for a 3-D right-hand side `S`:
it broadcasts `S` against the `(batch, steps, feats)` cross-section of `Y`
and fails with a `ValueError` when some axis is incompatible. -/
def assignSlot {α : Type} (Y : Tensor4 α) (j : Nat) (S : Tensor3 α) :
    Except String (Tensor4 α) :=
  if bcastOk Y.batch S.batch ∧ bcastOk Y.steps S.steps ∧ bcastOk Y.feats S.feats then
    .ok ⟨Y.batch, Y.steps, Y.preds, Y.feats,
      fun r t j2 f =>
        if j2 = j then S.val (bcastIdx S.batch r) (bcastIdx S.steps t) (bcastIdx S.feats f)
        else Y.val r t j2 f⟩
  else
    .error "could not broadcast input array"

/-- The body of the loop `for step_ahead in range(1, N_PREDICTIONS+1)` in
`get_sequence_to_sequence_data`, run over an explicit list of `step_ahead`
values: each iteration performs
`Y[:, :, step_ahead-1, :] = series[:, step_ahead:step_ahead+N_INPUT_STEPS, :]`. -/
def fillSteps {α : Type} (series : Tensor3 α) :
    List Nat → Tensor4 α → Except String (Tensor4 α)
  | [], Y => .ok Y
  | k :: ks, Y =>
    match assignSlot Y (k - 1) (sliceSteps series k (k + N_INPUT_STEPS)) with
    | .ok Y2 => fillSteps series ks Y2
    | .error e => .error e

/-- The 4-D tensor built by `get_sequence_to_sequence_data` before its final
reshape: `Y = np.empty((INITIAL_BATCH_SIZE, N_INPUT_STEPS, N_PREDICTIONS,
N_FEATURES))` (whose uninitialised contents are the parameter `junk`),
filled by the loop over `step_ahead = 1, …, N_PREDICTIONS`. -/
def seq_to_seq_4d {α : Type} (junk : Nat → Nat → Nat → Nat → α) (series : Tensor3 α) :
    Except String (Tensor4 α) :=
  fillSteps series (List.range' 1 N_PREDICTIONS)
    ⟨INITIAL_BATCH_SIZE, N_INPUT_STEPS, N_PREDICTIONS, N_FEATURES, junk⟩

/-- The final `Y.reshape(INITIAL_BATCH_SIZE, N_INPUT_STEPS,
N_PREDICTIONS*N_FEATURES)`: the last two axes are fused in row-major order. -/
def reshape4to3 {α : Type} (Y : Tensor4 α) : Tensor3 α :=
  ⟨Y.batch, Y.steps, Y.preds * Y.feats, fun r t c => Y.val r t (c / Y.feats) (c % Y.feats)⟩

/-- `get_sequence_to_sequence_data(series)`: build the 4-D target tensor and
flatten it to `(batch, n, m * features)`. -/
def get_sequence_to_sequence_data {α : Type} (junk : Nat → Nat → Nat → Nat → α)
    (series : Tensor3 α) : Except String (Tensor3 α) :=
  (seq_to_seq_4d junk series).map reshape4to3

/-- A 2-D numpy array of shape `(rows, cols)`. -/
structure Tensor2 (α : Type) where
  rows : Nat
  cols : Nat
  val : Nat → Nat → α

/-- `y[:, -1]`: the slice of a 3-D array at its final step index. -/
def lastStepSlice {α : Type} (y : Tensor3 α) : Tensor2 α :=
  ⟨y.batch, y.feats, fun i f => y.val i (y.steps - 1) f⟩

/-- `keras.metrics.mean_squared_error` on two 2-D arrays: it reduces the last
axis, giving one mean of squared differences per row. -/
def keras_mean_squared_error (a b : Tensor2 ℚ) : Nat → ℚ :=
  fun i => (∑ j in Finset.range a.cols, (a.val i j - b.val i j) ^ 2) / (a.cols : ℚ)

/-- `last_time_step_mse(y_true, y_pred)`: the MSE of the two slices at the
final time step, `keras.metrics.mean_squared_error(y_true[:,-1], y_pred[:,-1])`. -/
def last_time_step_mse (y_true y_pred : Tensor3 ℚ) : Nat → ℚ :=
  keras_mean_squared_error (lastStepSlice y_true) (lastStepSlice y_pred)

/-- Row-major flattening of a 3-D array, inverse of numpy's C-order layout. -/
def flat3 {α : Type} (T : Tensor3 α) : Nat → α :=
  fun idx =>
    T.val (idx / (T.steps * T.feats)) (idx % (T.steps * T.feats) / T.feats) (idx % T.feats)

/-- `T.reshape(b, n, m, f)` of a 3-D array, through the row-major flat layout. -/
def reshape3to4 {α : Type} (T : Tensor3 α) (b n m f : Nat) : Tensor4 α :=
  ⟨b, n, m, f, fun r t j k => flat3 T (((r * n + t) * m + j) * f + k)⟩

/-- The tail of every sequence-to-sequence strategy:
`y_pred.reshape(VALIDATION_BATCH_SIZE, N_INPUT_STEPS, N_PREDICTIONS,
N_FEATURES)[:, -1]`, keeping only the prediction emitted at the final input
time step. -/
def seq_strategy_prediction {α : Type} (out : Tensor3 α) : Tensor3 α :=
  let R := reshape3to4 out VALIDATION_BATCH_SIZE N_INPUT_STEPS N_PREDICTIONS N_FEATURES
  ⟨R.batch, R.preds, R.feats, fun r j k => R.val r (R.steps - 1) j k⟩

/-- `x_valid[:, -1].reshape((VALIDATION_BATCH_SIZE, 1, N_FEATURES))`. -/
def lastStepKeepdim (x_valid : Tensor3 ℚ) : Tensor3 ℚ :=
  ⟨VALIDATION_BATCH_SIZE, 1, N_FEATURES, fun r _ f => x_valid.val r (x_valid.steps - 1) f⟩

/-- Value lookup in a concatenation of 3-D arrays along the step axis. -/
def concatVal : List (Tensor3 ℚ) → Nat → Nat → Nat → ℚ
  | [], _, _, _ => 0
  | p :: ps, r, t, f => if t < p.steps then p.val r t f else concatVal ps r (t - p.steps) f

/-- `np.concatenate(pieces, axis=1)`: step extents add up, the other extents
are those of the first piece. -/
def np_concatenate_axis1 (pieces : List (Tensor3 ℚ)) : Tensor3 ℚ :=
  ⟨((pieces.head?).map Tensor3.batch).getD 0, (pieces.map Tensor3.steps).sum,
    ((pieces.head?).map Tensor3.feats).getD 0, concatVal pieces⟩

/-- The prediction tensor built inside `naive_forecasting`:
`np.concatenate([x_valid[:,-1].reshape((VALIDATION_BATCH_SIZE,1,N_FEATURES))
for x in range(N_PREDICTIONS)], axis=1)`. -/
def naive_y_pred (x_valid : Tensor3 ℚ) : Tensor3 ℚ :=
  np_concatenate_axis1 (List.replicate N_PREDICTIONS (lastStepKeepdim x_valid))

/-- `keras.losses.mean_squared_error` on two 3-D arrays: it reduces the last
(feature) axis, giving a 2-D array of per-(row, step) means. -/
def keras_mse3 (yt yp : Tensor3 ℚ) : Nat → Nat → ℚ :=
  fun r t => (∑ f in Finset.range yt.feats, (yt.val r t f - yp.val r t f) ^ 2) / (yt.feats : ℚ)

/-- `np.mean` over a 2-D array of the given extents. -/
def np_mean2 (g : Nat → Nat → ℚ) (rows cols : Nat) : ℚ :=
  (∑ r in Finset.range rows, ∑ c in Finset.range cols, g r c) / ((rows * cols : Nat) : ℚ)

/-- `naive_forecasting(x_valid, y_valid)`: the repeated-last-step prediction
together with `np.mean(keras.losses.mean_squared_error(y_valid, y_pred))`. -/
def naive_forecasting (x_valid y_valid : Tensor3 ℚ) : ℚ × Tensor3 ℚ :=
  let y_pred := naive_y_pred x_valid
  (np_mean2 (keras_mse3 y_valid y_pred) y_valid.batch y_valid.steps, y_pred)

/-- Standard dimensions of the sequence-to-sequence target tensor, those of
`np.empty((INITIAL_BATCH_SIZE, N_INPUT_STEPS, N_PREDICTIONS, N_FEATURES))`. -/
def stdDims4 {α : Type} (Y : Tensor4 α) : Prop :=
  Y.batch = INITIAL_BATCH_SIZE ∧ Y.steps = N_INPUT_STEPS ∧
    Y.preds = N_PREDICTIONS ∧ Y.feats = N_FEATURES

theorem assignSlot_ok {α : Type} (Y : Tensor4 α) (j : Nat) (S : Tensor3 α)
    (h1 : S.batch = Y.batch) (h2 : S.steps = Y.steps) (h3 : S.feats = Y.feats)
    (hb : Y.batch ≠ 1) (hs : Y.steps ≠ 1) (hf : Y.feats ≠ 1) :
    assignSlot Y j S = .ok ⟨Y.batch, Y.steps, Y.preds, Y.feats,
      fun r t j2 f => if j2 = j then S.val r t f else Y.val r t j2 f⟩ := by
  have hc : bcastOk Y.batch S.batch ∧ bcastOk Y.steps S.steps ∧ bcastOk Y.feats S.feats :=
    ⟨Or.inl h1, Or.inl h2, Or.inl h3⟩
  unfold assignSlot
  rw [if_pos hc]
  congr 1
  congr 1
  funext r t j2 f
  by_cases hj : j2 = j <;>
    simp [hj, bcastIdx, h1, h2, h3, hb, hs, hf]

theorem assignSlot_dims {α : Type} {Y Y2 : Tensor4 α} {j : Nat} {S : Tensor3 α}
    (h : assignSlot Y j S = .ok Y2) :
    Y2.batch = Y.batch ∧ Y2.steps = Y.steps ∧ Y2.preds = Y.preds ∧ Y2.feats = Y.feats := by
  unfold assignSlot at h
  by_cases hc : bcastOk Y.batch S.batch ∧ bcastOk Y.steps S.steps ∧ bcastOk Y.feats S.feats
  · rw [if_pos hc] at h
    cases h
    exact ⟨rfl, rfl, rfl, rfl⟩
  · rw [if_neg hc] at h
    cases h

theorem assignSlot_checked {α : Type} {Y Y2 : Tensor4 α} {j : Nat} {S : Tensor3 α}
    (h : assignSlot Y j S = .ok Y2) :
    bcastOk Y.batch S.batch ∧ bcastOk Y.steps S.steps ∧ bcastOk Y.feats S.feats := by
  unfold assignSlot at h
  by_cases hc : bcastOk Y.batch S.batch ∧ bcastOk Y.steps S.steps ∧ bcastOk Y.feats S.feats
  · exact hc
  · rw [if_neg hc] at h
    cases h

/-- If the filling loop succeeds, each iteration's broadcast check on the step
axis held: the slice `series[:, k:k+N_INPUT_STEPS, :]` was broadcast-compatible
with the step axis of `Y`. -/
theorem fillSteps_ok_bcast {α : Type} (series : Tensor3 α) :
    ∀ (ks : List Nat) (Y Y2 : Tensor4 α), fillSteps series ks Y = .ok Y2 →
      ∀ k ∈ ks, bcastOk Y.steps (sliceSteps series k (k + N_INPUT_STEPS)).steps := by
  intro ks
  induction ks with
  | nil => intro Y Y2 _ k hk; cases hk
  | cons k0 ks ih =>
    intro Y Y2 h k hk
    unfold fillSteps at h
    cases hA : assignSlot Y (k0 - 1) (sliceSteps series k0 (k0 + N_INPUT_STEPS)) with
    | error e => rw [hA] at h; cases h
    | ok Y3 =>
      rw [hA] at h
      rcases List.mem_cons.mp hk with hk0 | hks
      · subst hk0
        exact (assignSlot_checked hA).2.1
      · have hd := (assignSlot_dims hA).2.1
        have := ih Y3 Y2 h k hks
        rwa [hd] at this

/-- Invariant of the filling loop over `step_ahead = a, a+1, …, a+cnt-1`:
when the series has the standard batch and feature extents and at least
`N_STEPS` steps, every iteration succeeds, slot `k-1` of the result holds
`series[:, k:k+N_INPUT_STEPS, :]`, and slots outside the processed range keep
their previous contents. -/
theorem fillSteps_range'_ok {α : Type} (series : Tensor3 α)
    (hb : series.batch = INITIAL_BATCH_SIZE) (hf : series.feats = N_FEATURES)
    (hs : N_STEPS ≤ series.steps) :
    ∀ (cnt a : Nat) (Y : Tensor4 α), 1 ≤ a → a + cnt ≤ N_PREDICTIONS + 1 →
    stdDims4 Y →
    ∃ Y2, fillSteps series (List.range' a cnt) Y = .ok Y2 ∧ stdDims4 Y2 ∧
      (∀ j r t f, a ≤ j + 1 → j + 1 < a + cnt →
        Y2.val r t j f = series.val r (j + 1 + t) f) ∧
      (∀ j r t f, j + 1 < a ∨ a + cnt ≤ j + 1 → Y2.val r t j f = Y.val r t j f) := by
  intro cnt
  induction cnt with
  | zero =>
    intro a Y _ _ hY
    refine ⟨Y, rfl, hY, ?_, ?_⟩
    · intro j r t f h1 h2; omega
    · intro j r t f _; rfl
  | succ cnt ih =>
    intro a Y ha hacnt hY
    obtain ⟨hYb, hYs, hYp, hYf⟩ := hY
    have hsl_batch : (sliceSteps series a (a + N_INPUT_STEPS)).batch = Y.batch := by
      simp [sliceSteps, hb, hYb]
    have hsl_feats : (sliceSteps series a (a + N_INPUT_STEPS)).feats = Y.feats := by
      simp [sliceSteps, hf, hYf]
    have hbound : a + N_INPUT_STEPS ≤ series.steps := by
      have : N_INPUT_STEPS + N_PREDICTIONS = N_STEPS := by
        simp [N_INPUT_STEPS, N_STEPS, N_PREDICTIONS]
      omega
    have hsl_steps : (sliceSteps series a (a + N_INPUT_STEPS)).steps = Y.steps := by
      simp only [sliceSteps, hYs]
      omega
    have hne1b : Y.batch ≠ 1 := by rw [hYb]; simp [INITIAL_BATCH_SIZE]
    have hne1s : Y.steps ≠ 1 := by rw [hYs]; simp [N_INPUT_STEPS, N_STEPS, N_PREDICTIONS]
    have hne1f : Y.feats ≠ 1 := by rw [hYf]; simp [N_FEATURES]
    have hassign := assignSlot_ok Y (a - 1) (sliceSteps series a (a + N_INPUT_STEPS))
      hsl_batch hsl_steps hsl_feats hne1b hne1s hne1f
    set Y1 : Tensor4 α := ⟨Y.batch, Y.steps, Y.preds, Y.feats,
      fun r t j2 f => if j2 = a - 1 then (sliceSteps series a (a + N_INPUT_STEPS)).val r t f
        else Y.val r t j2 f⟩ with hY1
    have hY1dims : stdDims4 Y1 := ⟨hYb, hYs, hYp, hYf⟩
    obtain ⟨Y2, hrun, hY2dims, hwr, hpres⟩ :=
      ih (a + 1) Y1 (by omega) (by omega) hY1dims
    have hslval : ∀ r t f, (sliceSteps series a (a + N_INPUT_STEPS)).val r t f =
        series.val r (a + t) f := by
      intro r t f
      simp only [sliceSteps]
      congr 2
      omega
    refine ⟨Y2, ?_, hY2dims, ?_, ?_⟩
    · rw [List.range'_succ]
      unfold fillSteps
      rw [hassign]
      exact hrun
    · intro j r t f h1 h2
      rcases Nat.lt_or_ge (j + 1) (a + 1) with hlt | hge
      · have hj : j = a - 1 := by omega
        have hidx : j + 1 + t = a + t := by omega
        have hp := hpres j r t f (Or.inl hlt)
        rw [hp, hY1, hidx]
        simp only [hj, if_pos rfl]
        exact hslval r t f
      · exact hwr j r t f hge (by omega)
    · intro j r t f hout
      have h1 := hpres j r t f (by omega)
      rw [h1, hY1]
      simp only []
      rw [if_neg (by omega)]

end Chapter15

namespace Chapter15

/-- C1: for every series with the standard batch and feature extents and at
least `n + m` time steps, the sequence-to-sequence windowing succeeds and the
4-D target tensor (before flattening) satisfies
`Y[row, t, k-1, feat] = series[row, t+k, feat]` for every row, every
`t ∈ [0, n)` and every `k ∈ [1, m]`. -/
theorem seq_to_seq_window_correct {α : Type} (junk : Nat → Nat → Nat → Nat → α)
    (series : Tensor3 α)
    (hb : series.batch = INITIAL_BATCH_SIZE) (hf : series.feats = N_FEATURES)
    (hs : N_INPUT_STEPS + N_PREDICTIONS ≤ series.steps) :
    ∃ Y, seq_to_seq_4d junk series = .ok Y ∧ stdDims4 Y ∧
      ∀ row t k feat, row < INITIAL_BATCH_SIZE → t < N_INPUT_STEPS →
        1 ≤ k → k ≤ N_PREDICTIONS → feat < N_FEATURES →
        Y.val row t (k - 1) feat = series.val row (t + k) feat := by
  have hnm : N_INPUT_STEPS + N_PREDICTIONS = N_STEPS := by
    simp [N_INPUT_STEPS, N_STEPS, N_PREDICTIONS]
  have hs' : N_STEPS ≤ series.steps := by omega
  obtain ⟨Y2, hrun, hdims, hwr, _⟩ := fillSteps_range'_ok series hb hf hs' N_PREDICTIONS 1
    ⟨INITIAL_BATCH_SIZE, N_INPUT_STEPS, N_PREDICTIONS, N_FEATURES, junk⟩ (le_refl 1) (by omega)
    ⟨rfl, rfl, rfl, rfl⟩
  refine ⟨Y2, ?_, hdims, ?_⟩
  · unfold seq_to_seq_4d
    exact hrun
  · intro row t k feat _ _ hk1 hk2 _
    have h := hwr (k - 1) row t feat (by omega) (by omega)
    have hidx : k - 1 + 1 + t = t + k := by omega
    rw [hidx] at h
    exact h

theorem seq_to_seq_window_correct_witness :
    ∃ Y, seq_to_seq_4d (fun _ _ _ _ => (0 : Nat))
        ⟨1350, 200, 2, fun r t f => r + t + f⟩ = .ok Y ∧ stdDims4 Y ∧
      ∀ row t k feat, row < INITIAL_BATCH_SIZE → t < N_INPUT_STEPS →
        1 ≤ k → k ≤ N_PREDICTIONS → feat < N_FEATURES →
        Y.val row t (k - 1) feat =
          Tensor3.val ⟨1350, 200, 2, fun r t f => r + t + f⟩ row (t + k) feat :=
  seq_to_seq_window_correct (fun _ _ _ _ => (0 : Nat))
    ⟨1350, 200, 2, fun r t f => r + t + f⟩ rfl rfl (by decide)

/-- C5: applying the windowing to a series with fewer than `n + m` steps makes
the loop's numpy assignment fail with a broadcast (shape) error; the function
never returns a silently truncated tensor. -/
theorem seq_to_seq_short_series_errors {α : Type} (junk : Nat → Nat → Nat → Nat → α)
    (series : Tensor3 α)
    (hb : series.batch = INITIAL_BATCH_SIZE) (hf : series.feats = N_FEATURES)
    (hs : series.steps < N_INPUT_STEPS + N_PREDICTIONS) :
    ∃ msg, get_sequence_to_sequence_data junk series = .error msg := by
  unfold get_sequence_to_sequence_data
  cases hrun : seq_to_seq_4d junk series with
  | error e => exact ⟨e, rfl⟩
  | ok Y2 =>
    exfalso
    unfold seq_to_seq_4d at hrun
    have hball := fillSteps_ok_bcast series (List.range' 1 N_PREDICTIONS)
      ⟨INITIAL_BATCH_SIZE, N_INPUT_STEPS, N_PREDICTIONS, N_FEATURES, junk⟩ Y2 hrun
    set s := series.steps with hsdef
    have hs200 : s < 200 := by
      have : N_INPUT_STEPS + N_PREDICTIONS = 200 := by
        simp [N_INPUT_STEPS, N_STEPS, N_PREDICTIONS]
      omega
    -- choose a step_ahead value whose slice has a broadcast-incompatible length
    set k : Nat := if 151 ≤ s then 50 else if s = 2 then 2 else 1 with hkdef
    have hkmem : k ∈ List.range' 1 N_PREDICTIONS := by
      rw [List.mem_range'_1]
      have : N_PREDICTIONS = 50 := rfl
      rw [this]
      rcases le_or_lt 151 s with h1 | h1
      · rw [hkdef, if_pos h1]; omega
      · rcases eq_or_ne s 2 with h2 | h2
        · rw [hkdef, if_neg (by omega), if_pos h2]; omega
        · rw [hkdef, if_neg (by omega), if_neg h2]; omega
    have hcheck := hball k hkmem
    simp only [sliceSteps, bcastOk, N_INPUT_STEPS, N_STEPS, N_PREDICTIONS] at hcheck
    norm_num at hcheck
    rcases le_or_lt 151 s with h1 | h1
    · rw [hkdef, if_pos h1] at hcheck
      omega
    · rcases eq_or_ne s 2 with h2 | h2
      · rw [hkdef, if_neg (by omega), if_pos h2] at hcheck
        omega
      · rw [hkdef, if_neg (by omega), if_neg h2] at hcheck
        omega

theorem seq_to_seq_short_series_errors_witness :
    ∃ msg, get_sequence_to_sequence_data (fun _ _ _ _ => (0 : Nat))
      ⟨1350, 120, 2, fun r t f => r + t + f⟩ = .error msg :=
  seq_to_seq_short_series_errors (fun _ _ _ _ => (0 : Nat))
    ⟨1350, 120, 2, fun r t f => r + t + f⟩ rfl rfl (by decide)

/-- C4: `indices = (900, 1200)` split the batch dimension `[0, 1350)` into the
three contiguous, pairwise disjoint ranges `[0, 900)`, `[900, 1200)`,
`[1200, 1350)`, whose sizes `900 + 300 + 150` sum to the total batch size. -/
theorem partition_indices_partition :
    TRAINING_BATCH_SIZE + VALIDATION_BATCH_SIZE + TESTING_BATCH_SIZE = INITIAL_BATCH_SIZE ∧
    indices = (TRAINING_BATCH_SIZE, TRAINING_BATCH_SIZE + VALIDATION_BATCH_SIZE) ∧
    Finset.Ico 0 indices.1 ∪ Finset.Ico indices.1 indices.2 ∪
      Finset.Ico indices.2 INITIAL_BATCH_SIZE = Finset.range INITIAL_BATCH_SIZE ∧
    Disjoint (Finset.Ico 0 indices.1) (Finset.Ico indices.1 indices.2) ∧
    Disjoint (Finset.Ico indices.1 indices.2) (Finset.Ico indices.2 INITIAL_BATCH_SIZE) ∧
    Disjoint (Finset.Ico 0 indices.1) (Finset.Ico indices.2 INITIAL_BATCH_SIZE) ∧
    (Finset.Ico 0 indices.1).card = TRAINING_BATCH_SIZE ∧
    (Finset.Ico indices.1 indices.2).card = VALIDATION_BATCH_SIZE ∧
    (Finset.Ico indices.2 INITIAL_BATCH_SIZE).card = TESTING_BATCH_SIZE := by
  have h1 : indices.1 = 900 := rfl
  have h2 : indices.2 = 1200 := rfl
  refine ⟨rfl, rfl, ?_, ?_, ?_, ?_, ?_, ?_, ?_⟩
  · rw [h1, h2, Finset.range_eq_Ico]
    show Finset.Ico 0 900 ∪ Finset.Ico 900 1200 ∪ Finset.Ico 1200 1350 = Finset.Ico 0 1350
    rw [Finset.Ico_union_Ico_eq_Ico (by omega) (by omega),
      Finset.Ico_union_Ico_eq_Ico (by omega) (by omega)]
  · rw [h1, h2]
    exact Finset.Ico_disjoint_Ico_consecutive 0 900 1200
  · rw [h1, h2]
    exact Finset.Ico_disjoint_Ico_consecutive 900 1200 1350
  · rw [h1, h2]
    rw [Finset.disjoint_left]
    intro a ha hb
    rw [Finset.mem_Ico] at ha hb
    omega
  · rw [h1, Nat.card_Ico]; decide
  · rw [h1, h2, Nat.card_Ico]; decide
  · rw [h2, Nat.card_Ico]; decide

theorem concatVal_replicate_one (p : Tensor3 ℚ) (hp : p.steps = 1) :
    ∀ (m t r f : Nat), t < m → concatVal (List.replicate m p) r t f = p.val r 0 f := by
  intro m
  induction m with
  | zero => intro t r f ht; omega
  | succ m ih =>
    intro t r f ht
    rw [List.replicate_succ]
    unfold concatVal
    rcases Nat.eq_zero_or_pos t with h0 | h0
    · subst h0
      rw [if_pos (by omega)]
    · rw [if_neg (by omega)]
      have := ih (t - p.steps) r f (by omega)
      exact this

theorem naive_y_pred_val (x_valid : Tensor3 ℚ) (hs : x_valid.steps = N_INPUT_STEPS)
    (r s f : Nat) (hlt : s < N_PREDICTIONS) :
    (naive_y_pred x_valid).val r s f = x_valid.val r (N_INPUT_STEPS - 1) f := by
  show concatVal (List.replicate N_PREDICTIONS (lastStepKeepdim x_valid)) r s f = _
  rw [concatVal_replicate_one (lastStepKeepdim x_valid) rfl N_PREDICTIONS s r f hlt]
  show x_valid.val r (x_valid.steps - 1) f = x_valid.val r (N_INPUT_STEPS - 1) f
  rw [hs]

theorem naive_y_pred_dims (x_valid : Tensor3 ℚ) :
    (naive_y_pred x_valid).batch = VALIDATION_BATCH_SIZE ∧
    (naive_y_pred x_valid).steps = N_PREDICTIONS ∧
    (naive_y_pred x_valid).feats = N_FEATURES := by
  refine ⟨rfl, ?_, rfl⟩
  show (List.map Tensor3.steps (List.replicate N_PREDICTIONS (lastStepKeepdim x_valid))).sum =
    N_PREDICTIONS
  rw [List.map_replicate]
  show (List.replicate N_PREDICTIONS 1).sum = N_PREDICTIONS
  rw [List.sum_replicate, smul_eq_mul, Nat.mul_one]

/-- C2: the naive prediction has shape `(VALIDATION_BATCH_SIZE, m, features)`,
is constant along the `m` axis, and each of its `m` slices equals the feature
vector at the last input time step (step `n-1`) of the same batch row. -/
theorem naive_prediction_constant (x_valid : Tensor3 ℚ)
    (hs : x_valid.steps = N_INPUT_STEPS) :
    (naive_y_pred x_valid).batch = VALIDATION_BATCH_SIZE ∧
    (naive_y_pred x_valid).steps = N_PREDICTIONS ∧
    (naive_y_pred x_valid).feats = N_FEATURES ∧
    (∀ r s f, s < N_PREDICTIONS →
      (naive_y_pred x_valid).val r s f = x_valid.val r (N_INPUT_STEPS - 1) f) ∧
    (∀ r s s2 f, s < N_PREDICTIONS → s2 < N_PREDICTIONS →
      (naive_y_pred x_valid).val r s f = (naive_y_pred x_valid).val r s2 f) := by
  obtain ⟨hd1, hd2, hd3⟩ := naive_y_pred_dims x_valid
  refine ⟨hd1, hd2, hd3, fun r s f h1 => naive_y_pred_val x_valid hs r s f h1, ?_⟩
  intro r s s2 f h1 h2
  rw [naive_y_pred_val x_valid hs r s f h1, naive_y_pred_val x_valid hs r s2 f h2]

theorem naive_prediction_constant_witness :
    (naive_y_pred ⟨300, 150, 2, fun r t f => (r : ℚ) + t + f⟩).batch =
      VALIDATION_BATCH_SIZE ∧
    (naive_y_pred ⟨300, 150, 2, fun r t f => (r : ℚ) + t + f⟩).steps = N_PREDICTIONS ∧
    (naive_y_pred ⟨300, 150, 2, fun r t f => (r : ℚ) + t + f⟩).feats = N_FEATURES ∧
    (∀ r s f, s < N_PREDICTIONS →
      (naive_y_pred ⟨300, 150, 2, fun r t f => (r : ℚ) + t + f⟩).val r s f =
        Tensor3.val ⟨300, 150, 2, fun r t f => (r : ℚ) + t + f⟩ r (N_INPUT_STEPS - 1) f) ∧
    (∀ r s s2 f, s < N_PREDICTIONS → s2 < N_PREDICTIONS →
      (naive_y_pred ⟨300, 150, 2, fun r t f => (r : ℚ) + t + f⟩).val r s f =
        (naive_y_pred ⟨300, 150, 2, fun r t f => (r : ℚ) + t + f⟩).val r s2 f) :=
  naive_prediction_constant ⟨300, 150, 2, fun r t f => (r : ℚ) + t + f⟩ rfl

/-- C7: on a validation input of shape `(300, 150, 2)` and target of shape
`(300, 50, 2)`, naive forecasting returns a prediction of shape `(300, 50, 2)`
and a scalar metric equal to the mean squared error between target and
prediction, and that metric is non-negative (and, being a rational number, is
finite). -/
theorem naive_forecasting_spec (x_valid y_valid : Tensor3 ℚ)
    (hxs : x_valid.steps = N_INPUT_STEPS)
    (hyb : y_valid.batch = VALIDATION_BATCH_SIZE) (hys : y_valid.steps = N_PREDICTIONS)
    (hyf : y_valid.feats = N_FEATURES) :
    (naive_forecasting x_valid y_valid).2.batch = VALIDATION_BATCH_SIZE ∧
    (naive_forecasting x_valid y_valid).2.steps = N_PREDICTIONS ∧
    (naive_forecasting x_valid y_valid).2.feats = N_FEATURES ∧
    (naive_forecasting x_valid y_valid).1 =
      (∑ r in Finset.range VALIDATION_BATCH_SIZE, ∑ s in Finset.range N_PREDICTIONS,
        (∑ f in Finset.range N_FEATURES,
          (y_valid.val r s f - x_valid.val r (N_INPUT_STEPS - 1) f) ^ 2) /
          ((N_FEATURES : Nat) : ℚ)) /
        ((VALIDATION_BATCH_SIZE * N_PREDICTIONS : Nat) : ℚ) ∧
    0 ≤ (naive_forecasting x_valid y_valid).1 := by
  obtain ⟨hd1, hd2, hd3⟩ := naive_y_pred_dims x_valid
  refine ⟨hd1, hd2, hd3, ?_, ?_⟩
  · show np_mean2 (keras_mse3 y_valid (naive_y_pred x_valid)) y_valid.batch y_valid.steps = _
    unfold np_mean2 keras_mse3
    rw [hyb, hys, hyf]
    apply congrArg (fun z : ℚ => z / ((VALIDATION_BATCH_SIZE * N_PREDICTIONS : Nat) : ℚ))
    apply Finset.sum_congr rfl
    intro r _
    apply Finset.sum_congr rfl
    intro s hsmem
    apply congrArg (fun z : ℚ => z / ((N_FEATURES : Nat) : ℚ))
    apply Finset.sum_congr rfl
    intro f _
    rw [naive_y_pred_val x_valid hxs r s f (Finset.mem_range.mp hsmem)]
  · show 0 ≤ np_mean2 (keras_mse3 y_valid (naive_y_pred x_valid)) y_valid.batch y_valid.steps
    unfold np_mean2 keras_mse3
    apply div_nonneg
    · apply Finset.sum_nonneg
      intro r _
      apply Finset.sum_nonneg
      intro c _
      apply div_nonneg
      · apply Finset.sum_nonneg
        intro f _
        exact sq_nonneg _
      · exact Nat.cast_nonneg _
    · exact Nat.cast_nonneg _

theorem naive_forecasting_spec_witness :
    (naive_forecasting ⟨300, 150, 2, fun r t f => (r : ℚ) + t + f⟩
      ⟨300, 50, 2, fun r t f => (r : ℚ) * t * f⟩).2.batch = VALIDATION_BATCH_SIZE ∧
    (naive_forecasting ⟨300, 150, 2, fun r t f => (r : ℚ) + t + f⟩
      ⟨300, 50, 2, fun r t f => (r : ℚ) * t * f⟩).2.steps = N_PREDICTIONS ∧
    (naive_forecasting ⟨300, 150, 2, fun r t f => (r : ℚ) + t + f⟩
      ⟨300, 50, 2, fun r t f => (r : ℚ) * t * f⟩).2.feats = N_FEATURES ∧
    (naive_forecasting ⟨300, 150, 2, fun r t f => (r : ℚ) + t + f⟩
      ⟨300, 50, 2, fun r t f => (r : ℚ) * t * f⟩).1 =
      (∑ r in Finset.range VALIDATION_BATCH_SIZE, ∑ s in Finset.range N_PREDICTIONS,
        (∑ f in Finset.range N_FEATURES,
          (Tensor3.val ⟨300, 50, 2, fun r t f => (r : ℚ) * t * f⟩ r s f -
            Tensor3.val ⟨300, 150, 2, fun r t f => (r : ℚ) + t + f⟩ r
              (N_INPUT_STEPS - 1) f) ^ 2) / ((N_FEATURES : Nat) : ℚ)) /
        ((VALIDATION_BATCH_SIZE * N_PREDICTIONS : Nat) : ℚ) ∧
    0 ≤ (naive_forecasting ⟨300, 150, 2, fun r t f => (r : ℚ) + t + f⟩
      ⟨300, 50, 2, fun r t f => (r : ℚ) * t * f⟩).1 :=
  naive_forecasting_spec ⟨300, 150, 2, fun r t f => (r : ℚ) + t + f⟩
    ⟨300, 50, 2, fun r t f => (r : ℚ) * t * f⟩ rfl rfl rfl rfl

/-- C6: `last_time_step_mse` is the row-wise mean squared error over the final
time-step slices `y_true[:, -1]` and `y_pred[:, -1]` only, and every
sequence-to-sequence strategy keeps as its prediction exactly the slice of the
reshaped model output at the final input time step. -/
theorem last_step_metric_and_selection (y_true y_pred : Tensor3 ℚ)
    (hsp : y_pred.steps = y_true.steps) {α : Type} (out : Tensor3 α)
    (hos : out.steps = N_INPUT_STEPS) (hof : out.feats = N_PREDICTIONS * N_FEATURES) :
    (∀ i, last_time_step_mse y_true y_pred i =
      (∑ j in Finset.range y_true.feats,
        (y_true.val i (y_true.steps - 1) j - y_pred.val i (y_true.steps - 1) j) ^ 2) /
        (y_true.feats : ℚ)) ∧
    (seq_strategy_prediction out).batch = VALIDATION_BATCH_SIZE ∧
    (seq_strategy_prediction out).steps = N_PREDICTIONS ∧
    (seq_strategy_prediction out).feats = N_FEATURES ∧
    (∀ r j k, j < N_PREDICTIONS → k < N_FEATURES →
      (seq_strategy_prediction out).val r j k =
        out.val r (N_INPUT_STEPS - 1) (j * N_FEATURES + k)) := by
  refine ⟨?_, rfl, rfl, rfl, ?_⟩
  · intro i
    unfold last_time_step_mse keras_mean_squared_error lastStepSlice
    rw [hsp]
  · intro r j k hj hk
    show flat3 out
      (((r * N_INPUT_STEPS + (N_INPUT_STEPS - 1)) * N_PREDICTIONS + j) * N_FEATURES + k) =
      out.val r (N_INPUT_STEPS - 1) (j * N_FEATURES + k)
    unfold flat3
    rw [hos, hof]
    simp only [N_INPUT_STEPS, N_STEPS, N_PREDICTIONS, N_FEATURES] at hj hk ⊢
    norm_num at hj hk ⊢
    have e1 : (((r * 150 + 149) * 50 + j) * 2 + k) / 15000 = r := by omega
    have e2 : (((r * 150 + 149) * 50 + j) * 2 + k) % 15000 / 100 = 149 := by omega
    have e3 : (((r * 150 + 149) * 50 + j) * 2 + k) % 100 = j * 2 + k := by omega
    rw [e1, e2, e3]

theorem last_step_metric_and_selection_witness :
    (∀ i, last_time_step_mse ⟨300, 50, 2, fun r t f => (r : ℚ) + t + f⟩
        ⟨300, 50, 2, fun r t f => (r : ℚ) * t * f⟩ i =
      (∑ j in Finset.range (Tensor3.feats ⟨300, 50, 2, fun r t f => (r : ℚ) + t + f⟩),
        (Tensor3.val ⟨300, 50, 2, fun r t f => (r : ℚ) + t + f⟩ i
            (Tensor3.steps ⟨300, 50, 2, fun r t f => (r : ℚ) + t + f⟩ - 1) j -
          Tensor3.val ⟨300, 50, 2, fun r t f => (r : ℚ) * t * f⟩ i
            (Tensor3.steps ⟨300, 50, 2, fun r t f => (r : ℚ) + t + f⟩ - 1) j) ^ 2) /
        ((Tensor3.feats ⟨300, 50, 2, fun r t f => (r : ℚ) + t + f⟩ : Nat) : ℚ)) ∧
    (seq_strategy_prediction ⟨300, 150, 100, fun r t c => r + t + c⟩).batch =
      VALIDATION_BATCH_SIZE ∧
    (seq_strategy_prediction ⟨300, 150, 100, fun r t c => r + t + c⟩).steps =
      N_PREDICTIONS ∧
    (seq_strategy_prediction ⟨300, 150, 100, fun r t c => r + t + c⟩).feats =
      N_FEATURES ∧
    (∀ r j k, j < N_PREDICTIONS → k < N_FEATURES →
      (seq_strategy_prediction ⟨300, 150, 100, fun r t c => r + t + c⟩).val r j k =
        Tensor3.val ⟨300, 150, 100, fun r t c => r + t + c⟩ r (N_INPUT_STEPS - 1)
          (j * N_FEATURES + k)) :=
  last_step_metric_and_selection ⟨300, 50, 2, fun r t f => (r : ℚ) + t + f⟩
    ⟨300, 50, 2, fun r t f => (r : ℚ) * t * f⟩ rfl
    (α := Nat) ⟨300, 150, 100, fun r t c => r + t + c⟩ rfl rfl

/-- numpy dtypes occurring in the script; `np.sin` and friends work in
`float64`, the final `astype(np.float32)` converts. -/
inductive DType where
  | float32
  | float64
deriving DecidableEq

/-- A concrete 3-D numpy array: nested lists of values plus a dtype tag. -/
structure NpArray3 where
  data : List (List (List ℝ))
  dtype : DType

/-- `np.linspace(0, 1, n)`: `n` evenly spaced points from 0 to 1. -/
noncomputable def np_linspace01 (n : Nat) (t : Nat) : ℝ :=
  if n ≤ 1 then 0 else (t : ℝ) / ((n : ℝ) - 1)

/-- The scalar waveform of `generate_time_series` at batch row `i` and time
step `t`: `0.5*sin((time - offsets1)*(freq1*10+10)) +
0.2*sin((time - offsets2)*(freq2*20+20)) + 0.1*(rand - 0.5)`. The calls to
`np.random.rand` are abstracted as the parameter functions `freq1`, `freq2`,
`offsets1`, `offsets2` (per row) and `noise` (per row and step), each drawn
uniformly from `[0, 1)`. -/
noncomputable def waveValue (freq1 freq2 offsets1 offsets2 : Nat → ℝ)
    (noise : Nat → Nat → ℝ) (n_steps : Nat) (i t : Nat) : ℝ :=
  0.5 * Real.sin ((np_linspace01 n_steps t - offsets1 i) * (freq1 i * 10 + 10)) +
    0.2 * Real.sin ((np_linspace01 n_steps t - offsets2 i) * (freq2 i * 20 + 20)) +
    0.1 * (noise i t - 0.5)

/-- `generate_time_series(batch_size, n_steps)`: the scalar waveform, reshaped
to `(batch_size, n_steps, 1)` and repeated `N_FEATURES` times along the new
feature axis, then cast with `astype(np.float32)`. -/
noncomputable def generate_time_series (freq1 freq2 offsets1 offsets2 : Nat → ℝ)
    (noise : Nat → Nat → ℝ) (batch_size n_steps : Nat) : NpArray3 :=
  ⟨(List.range batch_size).map (fun i =>
      (List.range n_steps).map (fun t =>
        List.replicate N_FEATURES (waveValue freq1 freq2 offsets1 offsets2 noise n_steps i t))),
    DType.float32⟩

/-- C3: the generated series has shape exactly `(batch_size, n_steps, 2)`,
32-bit float dtype, and its two feature entries are element-wise identical in
every scalar-vector. -/
theorem generate_time_series_shape (freq1 freq2 offsets1 offsets2 : Nat → ℝ)
    (noise : Nat → Nat → ℝ) (batch_size n_steps : Nat) :
    (generate_time_series freq1 freq2 offsets1 offsets2 noise batch_size n_steps).data.length =
      batch_size ∧
    (∀ row ∈ (generate_time_series freq1 freq2 offsets1 offsets2 noise
        batch_size n_steps).data,
      row.length = n_steps ∧ ∀ v ∈ row, v.length = N_FEATURES ∧ N_FEATURES = 2 ∧
        ∀ a ∈ v, ∀ b ∈ v, a = b) ∧
    (generate_time_series freq1 freq2 offsets1 offsets2 noise batch_size n_steps).dtype =
      DType.float32 := by
  refine ⟨?_, ?_, rfl⟩
  · simp [generate_time_series]
  · intro row hrow
    simp only [generate_time_series, List.mem_map, List.mem_range] at hrow
    obtain ⟨i, _, hrow⟩ := hrow
    subst hrow
    refine ⟨by simp, ?_⟩
    intro v hv
    simp only [List.mem_map, List.mem_range] at hv
    obtain ⟨t, _, hv⟩ := hv
    subst hv
    refine ⟨List.length_replicate _ _, rfl, ?_⟩
    intro a ha b hb
    rw [List.eq_of_mem_replicate ha, List.eq_of_mem_replicate hb]

theorem abs_waveValue_le (freq1 freq2 offsets1 offsets2 : Nat → ℝ)
    (noise : Nat → Nat → ℝ) (n_steps : Nat) (i t : Nat)
    (hnz : noise i t ∈ Set.Ico (0 : ℝ) 1) :
    |waveValue freq1 freq2 offsets1 offsets2 noise n_steps i t| ≤ 0.75 := by
  obtain ⟨hn0, hn1⟩ := hnz
  unfold waveValue
  set A := (np_linspace01 n_steps t - offsets1 i) * (freq1 i * 10 + 10) with hA
  set B := (np_linspace01 n_steps t - offsets2 i) * (freq2 i * 20 + 20) with hB
  have hsA : |Real.sin A| ≤ 1 := abs_le.mpr ⟨Real.neg_one_le_sin A, Real.sin_le_one A⟩
  have hsB : |Real.sin B| ≤ 1 := abs_le.mpr ⟨Real.neg_one_le_sin B, Real.sin_le_one B⟩
  have h1 : |0.5 * Real.sin A| ≤ 0.5 := by
    rw [abs_mul]
    calc |(0.5 : ℝ)| * |Real.sin A| ≤ |(0.5 : ℝ)| * 1 := by
          apply mul_le_mul_of_nonneg_left hsA (abs_nonneg _)
      _ = 0.5 := by norm_num
  have h2 : |0.2 * Real.sin B| ≤ 0.2 := by
    rw [abs_mul]
    calc |(0.2 : ℝ)| * |Real.sin B| ≤ |(0.2 : ℝ)| * 1 := by
          apply mul_le_mul_of_nonneg_left hsB (abs_nonneg _)
      _ = 0.2 := by norm_num
  have h3 : |0.1 * (noise i t - 0.5)| ≤ 0.05 := by
    rw [abs_mul]
    have : |noise i t - 0.5| ≤ 0.5 := abs_le.mpr ⟨by linarith, by linarith⟩
    calc |(0.1 : ℝ)| * |noise i t - 0.5| ≤ |(0.1 : ℝ)| * 0.5 := by
          apply mul_le_mul_of_nonneg_left this (abs_nonneg _)
      _ = 0.05 := by
          rw [abs_of_pos (by norm_num : (0 : ℝ) < 0.1)]
          norm_num
  calc |0.5 * Real.sin A + 0.2 * Real.sin B + 0.1 * (noise i t - 0.5)|
      ≤ |0.5 * Real.sin A + 0.2 * Real.sin B| + |0.1 * (noise i t - 0.5)| := abs_add _ _
    _ ≤ |0.5 * Real.sin A| + |0.2 * Real.sin B| + |0.1 * (noise i t - 0.5)| := by
        have := abs_add (0.5 * Real.sin A) (0.2 * Real.sin B)
        linarith
    _ ≤ 0.75 := by linarith

/-- C8: with the random draws in `[0, 1)`, every value of the generated series
has magnitude at most `0.75 = 0.5 + 0.2 + 0.05` and so lies within `[-1, 1]`;
the two randomised frequencies fall in the disjoint bands `[10, 20)` and
`[20, 40)`. -/
theorem generate_time_series_bounded (freq1 freq2 offsets1 offsets2 : Nat → ℝ)
    (noise : Nat → Nat → ℝ) (batch_size n_steps : Nat)
    (hf1 : ∀ i, freq1 i ∈ Set.Ico (0 : ℝ) 1) (hf2 : ∀ i, freq2 i ∈ Set.Ico (0 : ℝ) 1)
    (hnz : ∀ i t, noise i t ∈ Set.Ico (0 : ℝ) 1) :
    (∀ row ∈ (generate_time_series freq1 freq2 offsets1 offsets2 noise
        batch_size n_steps).data,
      ∀ v ∈ row, ∀ x ∈ v, |x| ≤ 0.75 ∧ x ∈ Set.Icc (-1 : ℝ) 1) ∧
    (∀ i, freq1 i * 10 + 10 ∈ Set.Ico (10 : ℝ) 20) ∧
    (∀ i, freq2 i * 20 + 20 ∈ Set.Ico (20 : ℝ) 40) ∧
    Set.Ico (10 : ℝ) 20 ∩ Set.Ico (20 : ℝ) 40 = ∅ := by
  refine ⟨?_, ?_, ?_, ?_⟩
  · intro row hrow v hv x hx
    simp only [generate_time_series, List.mem_map, List.mem_range] at hrow
    obtain ⟨i, _, hrow⟩ := hrow
    subst hrow
    simp only [List.mem_map, List.mem_range] at hv
    obtain ⟨t, _, hv⟩ := hv
    subst hv
    rw [List.eq_of_mem_replicate hx]
    have hb := abs_waveValue_le freq1 freq2 offsets1 offsets2 noise n_steps i t (hnz i t)
    have := abs_le.mp hb
    exact ⟨hb, by constructor <;> linarith [this.1, this.2]⟩
  · intro i
    obtain ⟨h0, h1⟩ := hf1 i
    exact ⟨by linarith, by linarith⟩
  · intro i
    obtain ⟨h0, h1⟩ := hf2 i
    exact ⟨by linarith, by linarith⟩
  · ext x
    simp only [Set.mem_inter_iff, Set.mem_Ico, Set.mem_empty_iff_false, iff_false]
    rintro ⟨⟨_, h1⟩, h2, _⟩
    linarith

theorem generate_time_series_bounded_witness :
    (∀ row ∈ (generate_time_series (fun _ => 0) (fun _ => 0) (fun _ => 0) (fun _ => 0)
        (fun _ _ => 0) 2 3).data,
      ∀ v ∈ row, ∀ x ∈ v, |x| ≤ 0.75 ∧ x ∈ Set.Icc (-1 : ℝ) 1) ∧
    (∀ i : Nat, (fun _ : Nat => (0 : ℝ)) i * 10 + 10 ∈ Set.Ico (10 : ℝ) 20) ∧
    (∀ i : Nat, (fun _ : Nat => (0 : ℝ)) i * 20 + 20 ∈ Set.Ico (20 : ℝ) 40) ∧
    Set.Ico (10 : ℝ) 20 ∩ Set.Ico (20 : ℝ) 40 = ∅ :=
  generate_time_series_bounded (fun _ => 0) (fun _ => 0) (fun _ => 0) (fun _ => 0)
    (fun _ _ => 0) 2 3 (fun _ => by norm_num) (fun _ => by norm_num)
    (fun _ _ => by norm_num)

/-- A heap of flat numpy buffers: allocation id to row-major contents.  Every
numpy array owns one buffer; slicing creates views, and an assignment writes
through the view into one buffer. -/
def Heap (α : Type) : Type := Nat → Nat → α

/-- Memory effect of one loop iteration
`Y[:, :, step_ahead-1, :] = series[:, step_ahead:step_ahead+N_INPUT_STEPS, :]`:
the buffer `yCell` holding `Y` (row-major shape `(1350, 150, 50, 2)`) is
rewritten at slot `step_ahead - 1`, reading from the buffer `sCell` holding
`series` (row-major shape `(1350, 200, 2)`); no other buffer is touched. -/
def writeSeqSlot {α : Type} (sCell yCell : Nat) (step_ahead : Nat) (H : Heap α) : Heap α :=
  fun c idx =>
    if c = yCell then
      if idx / 2 % 50 = step_ahead - 1 then
        H sCell (idx / 15000 * 400 + (step_ahead + idx / 100 % 150) * 2 + idx % 2)
      else H yCell idx
    else H c idx

/-- The heap-level windowing loop: `Y = np.empty(...)` allocates the fresh
buffer `yCell`, then the loop runs for `step_ahead = 1, …, N_PREDICTIONS`. -/
def seq_to_seq_heap {α : Type} (sCell yCell : Nat) (H : Heap α) : Heap α :=
  (List.range' 1 N_PREDICTIONS).foldl (fun acc k => writeSeqSlot sCell yCell k acc) H

/-- Memory effect of `naive_forecasting`: `np.concatenate` allocates the fresh
buffer `pCell` for `y_pred` (row-major shape `(300, 50, 2)`) and fills it from
the buffer `xCell` holding `x_valid` (row-major shape `(300, 150, 2)`), reading
only its last-step entries; nothing else is written. -/
def naive_heap {α : Type} (xCell pCell : Nat) (H : Heap α) : Heap α :=
  fun c idx =>
    if c = pCell then H xCell (idx / 100 * 300 + 149 * 2 + idx % 2) else H c idx

theorem writeSeqSlot_frame {α : Type} (sCell yCell k : Nat) (H : Heap α) (c : Nat)
    (hc : c ≠ yCell) : writeSeqSlot sCell yCell k H c = H c := by
  funext idx
  unfold writeSeqSlot
  rw [if_neg hc]

theorem seq_to_seq_heap_frame_aux {α : Type} (sCell yCell : Nat) :
    ∀ (ks : List Nat) (H : Heap α) (c : Nat), c ≠ yCell →
      (ks.foldl (fun acc k => writeSeqSlot sCell yCell k acc) H) c = H c := by
  intro ks
  induction ks with
  | nil => intro H c _; rfl
  | cons k ks ih =>
    intro H c hc
    rw [List.foldl_cons, ih _ c hc, writeSeqSlot_frame sCell yCell k H c hc]

/-- C9: neither the windowing loop nor naive forecasting mutates its input:
every buffer other than the freshly allocated output buffer — in particular
the buffer holding the source series, resp. the validation input window — is
unchanged after the operation. -/
theorem inputs_not_mutated {α : Type} (sCell yCell xCell pCell : Nat)
    (H1 H2 : Heap α) (hY : sCell ≠ yCell) (hP : xCell ≠ pCell) :
    (∀ c, c ≠ yCell → seq_to_seq_heap sCell yCell H1 c = H1 c) ∧
    seq_to_seq_heap sCell yCell H1 sCell = H1 sCell ∧
    (∀ c, c ≠ pCell → naive_heap xCell pCell H2 c = H2 c) ∧
    naive_heap xCell pCell H2 xCell = H2 xCell := by
  have hseq : ∀ c, c ≠ yCell → seq_to_seq_heap sCell yCell H1 c = H1 c := by
    intro c hc
    exact seq_to_seq_heap_frame_aux sCell yCell (List.range' 1 N_PREDICTIONS) H1 c hc
  have hnv : ∀ c, c ≠ pCell → naive_heap xCell pCell H2 c = H2 c := by
    intro c hc
    funext idx
    unfold naive_heap
    rw [if_neg hc]
  exact ⟨hseq, hseq sCell hY, hnv, hnv xCell hP⟩

theorem inputs_not_mutated_witness :
    (∀ c, c ≠ 1 → seq_to_seq_heap 0 1 (fun c idx => c + idx) c = (fun c idx => c + idx) c) ∧
    seq_to_seq_heap 0 1 (fun c idx => c + idx) 0 = (fun c idx => c + idx) 0 ∧
    (∀ c, c ≠ 3 → naive_heap 2 3 (fun c idx => c * idx) c = (fun c idx => c * idx) c) ∧
    naive_heap 2 3 (fun c idx => c * idx) 2 = (fun c idx => c * idx) 2 :=
  inputs_not_mutated 0 1 2 3 (fun c idx => c + idx) (fun c idx => c * idx)
    (by decide) (by decide)

/-- The assignment `full_sequence[:, t0, :] = v`. -/
def writeStepAt (T : Tensor3 ℚ) (t0 : Nat) (v : Nat → Nat → ℚ) : Tensor3 ℚ :=
  ⟨T.batch, T.steps, T.feats, fun r t f => if t = t0 then v r f else T.val r t f⟩

/-- `full_sequence = np.zeros((VALIDATION_BATch…, N_STEPS, N_FEATURES))`
followed by `full_sequence[:, :N_INPUT_STEPS, :] = x_valid[:, :, :]` (a copy,
not a view). -/
def initFullSequence (x_valid : Tensor3 ℚ) : Tensor3 ℚ :=
  ⟨VALIDATION_BATCH_SIZE, N_STEPS, N_FEATURES,
    fun r t f => if t < N_INPUT_STEPS then x_valid.val r t f else 0⟩

/-- One iteration of the loop in `rnn_iterative_forecasting`: with
`offset = N_INPUT_STEPS + step`, predict from
`full_sequence[:, step:offset, :]` and write the (reshaped) batch of predicted
feature vectors to `full_sequence[:, offset, :]`.  The trained one-step model
`model.predict` composed with the reshape to `(VALIDATION_BATCH_SIZE,
N_FEATURES)` is abstracted as the parameter `predict`. -/
def iterStep (predict : Tensor3 ℚ → Nat → Nat → ℚ) (fs : Tensor3 ℚ) (step : Nat) :
    Tensor3 ℚ :=
  writeStepAt fs (N_INPUT_STEPS + step)
    (predict (sliceSteps fs step (N_INPUT_STEPS + step)))

/-- The accumulated `full_sequence` after the first `s` loop iterations. -/
def fullSequenceIter (predict : Tensor3 ℚ → Nat → Nat → ℚ) (x_valid : Tensor3 ℚ) :
    Nat → Tensor3 ℚ
  | 0 => initFullSequence x_valid
  | s + 1 => iterStep predict (fullSequenceIter predict x_valid s) s

/-- `y_pred = full_sequence[:, -N_PREDICTIONS:, :]` after the loop has run for
all `N_PREDICTIONS` iterations. -/
def rnn_iterative_prediction (predict : Tensor3 ℚ → Nat → Nat → ℚ)
    (x_valid : Tensor3 ℚ) : Tensor3 ℚ :=
  let fs := fullSequenceIter predict x_valid N_PREDICTIONS
  sliceSteps fs (fs.steps - N_PREDICTIONS) fs.steps

/-- The batch of predicted vectors produced at loop iteration `s`, fed the
window `[s, N_INPUT_STEPS + s)` of the accumulated sequence. -/
def predAt (predict : Tensor3 ℚ → Nat → Nat → ℚ) (x_valid : Tensor3 ℚ) (s : Nat) :
    Nat → Nat → ℚ :=
  predict (sliceSteps (fullSequenceIter predict x_valid s) s (N_INPUT_STEPS + s))

theorem fullSequenceIter_dims (predict : Tensor3 ℚ → Nat → Nat → ℚ)
    (x_valid : Tensor3 ℚ) : ∀ s,
    (fullSequenceIter predict x_valid s).batch = VALIDATION_BATCH_SIZE ∧
    (fullSequenceIter predict x_valid s).steps = N_STEPS ∧
    (fullSequenceIter predict x_valid s).feats = N_FEATURES := by
  intro s
  induction s with
  | zero => exact ⟨rfl, rfl, rfl⟩
  | succ s ih => exact ih

/-- Contents of the accumulated sequence after `s` iterations: the first `n`
steps are the original validation input, steps `n, …, n+s-1` hold the
predictions of iterations `0, …, s-1`, and the remaining steps are still the
zeros they were initialised with. -/
theorem fullSequenceIter_val (predict : Tensor3 ℚ → Nat → Nat → ℚ)
    (x_valid : Tensor3 ℚ) : ∀ s r t f,
    (fullSequenceIter predict x_valid s).val r t f =
      if t < N_INPUT_STEPS then x_valid.val r t f
      else if t < N_INPUT_STEPS + s then predAt predict x_valid (t - N_INPUT_STEPS) r f
      else 0 := by
  intro s
  induction s with
  | zero =>
    intro r t f
    show (if t < N_INPUT_STEPS then x_valid.val r t f else 0) = _
    rcases Nat.lt_or_ge t N_INPUT_STEPS with h | h
    · rw [if_pos h, if_pos h]
    · rw [if_neg (by omega), if_neg (by omega), if_neg (by omega)]
  | succ s ih =>
    intro r t f
    show (if t = N_INPUT_STEPS + s then predAt predict x_valid s r f
      else (fullSequenceIter predict x_valid s).val r t f) = _
    rcases eq_or_ne t (N_INPUT_STEPS + s) with he | he
    · subst he
      rw [if_pos rfl, if_neg (by omega), if_pos (by omega), Nat.add_sub_cancel_left]
    · rw [if_neg he, ih r t f]
      by_cases h1 : t < N_INPUT_STEPS
      · simp only [if_pos h1]
      · simp only [if_neg h1]
        by_cases h2 : t < N_INPUT_STEPS + s
        · simp only [if_pos h2, if_pos (show t < N_INPUT_STEPS + (s + 1) by omega)]
        · simp only [if_neg h2, if_neg (show ¬t < N_INPUT_STEPS + (s + 1) by omega)]

/-- C10: the autoregressive loop uses a sliding window of fixed length `n`:
at iteration `s` the model input is exactly steps `[s, n+s)` of the
accumulated sequence — entries with `s+i < n` are original input steps (the
`s` earliest have been dropped), the last `s` entries are predictions of
earlier iterations — the predicted batch of vectors is written to absolute
step `n+s`, and the returned prediction is the final `m` steps of the
accumulated sequence. -/
theorem rnn_iterative_loop_spec (predict : Tensor3 ℚ → Nat → Nat → ℚ)
    (x_valid : Tensor3 ℚ) (s : Nat) (hs : s < N_PREDICTIONS) :
    (sliceSteps (fullSequenceIter predict x_valid s) s (N_INPUT_STEPS + s)).steps =
      N_INPUT_STEPS ∧
    (∀ r i f, i < N_INPUT_STEPS →
      (sliceSteps (fullSequenceIter predict x_valid s) s (N_INPUT_STEPS + s)).val r i f =
        (fullSequenceIter predict x_valid s).val r (s + i) f) ∧
    (∀ r i f, i < N_INPUT_STEPS → s + i < N_INPUT_STEPS →
      (sliceSteps (fullSequenceIter predict x_valid s) s (N_INPUT_STEPS + s)).val r i f =
        x_valid.val r (s + i) f) ∧
    (∀ r i f, i < N_INPUT_STEPS → N_INPUT_STEPS ≤ s + i →
      (sliceSteps (fullSequenceIter predict x_valid s) s (N_INPUT_STEPS + s)).val r i f =
        predAt predict x_valid (s + i - N_INPUT_STEPS) r f ∧
        s + i - N_INPUT_STEPS < s) ∧
    (∀ r f, (fullSequenceIter predict x_valid (s + 1)).val r (N_INPUT_STEPS + s) f =
      predAt predict x_valid s r f) ∧
    (rnn_iterative_prediction predict x_valid).steps = N_PREDICTIONS ∧
    (∀ r j f, j < N_PREDICTIONS →
      (rnn_iterative_prediction predict x_valid).val r j f =
        (fullSequenceIter predict x_valid N_PREDICTIONS).val r (N_INPUT_STEPS + j) f) := by
  have hnlt : N_INPUT_STEPS + N_PREDICTIONS = N_STEPS := by
    simp [N_INPUT_STEPS, N_STEPS, N_PREDICTIONS]
  obtain ⟨_, hsteps, _⟩ := fullSequenceIter_dims predict x_valid s
  have hwin_val : ∀ r i f,
      (sliceSteps (fullSequenceIter predict x_valid s) s (N_INPUT_STEPS + s)).val r i f =
        (fullSequenceIter predict x_valid s).val r (s + i) f := by
    intro r i f
    show (fullSequenceIter predict x_valid s).val r
      (min s (fullSequenceIter predict x_valid s).steps + i) f = _
    rw [hsteps]
    congr 2
    have : N_PREDICTIONS ≤ N_STEPS := by simp [N_STEPS, N_PREDICTIONS]
    omega
  refine ⟨?_, fun r i f _ => hwin_val r i f, ?_, ?_, ?_, ?_, ?_⟩
  · show min (N_INPUT_STEPS + s) (fullSequenceIter predict x_valid s).steps -
      min s (fullSequenceIter predict x_valid s).steps = N_INPUT_STEPS
    rw [hsteps]
    omega
  · intro r i f _ hin
    rw [hwin_val r i f, fullSequenceIter_val, if_pos hin]
  · intro r i f hi hin
    refine ⟨?_, by omega⟩
    rw [hwin_val r i f, fullSequenceIter_val, if_neg (by omega), if_pos (by omega)]
  · intro r f
    rw [fullSequenceIter_val, if_neg (by omega), if_pos (by omega),
      Nat.add_sub_cancel_left]
  · obtain ⟨_, hsteps2, _⟩ := fullSequenceIter_dims predict x_valid N_PREDICTIONS
    show min (fullSequenceIter predict x_valid N_PREDICTIONS).steps _ -
      min ((fullSequenceIter predict x_valid N_PREDICTIONS).steps - N_PREDICTIONS) _ =
      N_PREDICTIONS
    rw [hsteps2]
    omega
  · intro r j f hj
    obtain ⟨_, hsteps2, _⟩ := fullSequenceIter_dims predict x_valid N_PREDICTIONS
    show (fullSequenceIter predict x_valid N_PREDICTIONS).val r
      (min ((fullSequenceIter predict x_valid N_PREDICTIONS).steps - N_PREDICTIONS)
        (fullSequenceIter predict x_valid N_PREDICTIONS).steps + j) f = _
    rw [hsteps2]
    have hidx : min (N_STEPS - N_PREDICTIONS) N_STEPS + j = N_INPUT_STEPS + j := by
      simp only [N_STEPS, N_PREDICTIONS, N_INPUT_STEPS]
      omega
    rw [hidx]

theorem rnn_iterative_loop_spec_witness :
    (sliceSteps (fullSequenceIter (fun _ _ _ => 0) ⟨300, 150, 2, fun r t f => (r : ℚ) + t + f⟩ 3)
      3 (N_INPUT_STEPS + 3)).steps = N_INPUT_STEPS ∧
    (∀ r i f, i < N_INPUT_STEPS →
      (sliceSteps (fullSequenceIter (fun _ _ _ => 0)
          ⟨300, 150, 2, fun r t f => (r : ℚ) + t + f⟩ 3) 3 (N_INPUT_STEPS + 3)).val r i f =
        (fullSequenceIter (fun _ _ _ => 0)
          ⟨300, 150, 2, fun r t f => (r : ℚ) + t + f⟩ 3).val r (3 + i) f) ∧
    (∀ r i f, i < N_INPUT_STEPS → 3 + i < N_INPUT_STEPS →
      (sliceSteps (fullSequenceIter (fun _ _ _ => 0)
          ⟨300, 150, 2, fun r t f => (r : ℚ) + t + f⟩ 3) 3 (N_INPUT_STEPS + 3)).val r i f =
        Tensor3.val ⟨300, 150, 2, fun r t f => (r : ℚ) + t + f⟩ r (3 + i) f) ∧
    (∀ r i f, i < N_INPUT_STEPS → N_INPUT_STEPS ≤ 3 + i →
      (sliceSteps (fullSequenceIter (fun _ _ _ => 0)
          ⟨300, 150, 2, fun r t f => (r : ℚ) + t + f⟩ 3) 3 (N_INPUT_STEPS + 3)).val r i f =
        predAt (fun _ _ _ => 0) ⟨300, 150, 2, fun r t f => (r : ℚ) + t + f⟩
          (3 + i - N_INPUT_STEPS) r f ∧
        3 + i - N_INPUT_STEPS < 3) ∧
    (∀ r f, (fullSequenceIter (fun _ _ _ => 0)
        ⟨300, 150, 2, fun r t f => (r : ℚ) + t + f⟩ (3 + 1)).val r (N_INPUT_STEPS + 3) f =
      predAt (fun _ _ _ => 0) ⟨300, 150, 2, fun r t f => (r : ℚ) + t + f⟩ 3 r f) ∧
    (rnn_iterative_prediction (fun _ _ _ => 0)
      ⟨300, 150, 2, fun r t f => (r : ℚ) + t + f⟩).steps = N_PREDICTIONS ∧
    (∀ r j f, j < N_PREDICTIONS →
      (rnn_iterative_prediction (fun _ _ _ => 0)
        ⟨300, 150, 2, fun r t f => (r : ℚ) + t + f⟩).val r j f =
        (fullSequenceIter (fun _ _ _ => 0)
          ⟨300, 150, 2, fun r t f => (r : ℚ) + t + f⟩ N_PREDICTIONS).val r
          (N_INPUT_STEPS + j) f) :=
  rnn_iterative_loop_spec (fun _ _ _ => 0) ⟨300, 150, 2, fun r t f => (r : ℚ) + t + f⟩ 3
    (by decide)

end Chapter15
